import Mathlib

/-!
# Verification of the Cluster-Compliance-Checker orchestration core

A shallow embedding, in Lean 4, of the check-orchestration engine of the
`cluster_compliance_checker` Python package, together with theorems settling
the specification claims about it.

Conventions of the embedding:
* The dataclasses of `schema.py` become Lean structures with the same fields.
* A Python function raising an exception is modelled with `Except`, where the
  error payload is the exception message (the orchestrator catches every
  `Exception` uniformly, so no finer taxonomy is needed).
* `perform_check` of a concrete check is an external collaborator from the
  core's point of view; a check is therefore embedded as its *behaviour*: the
  outcome of calling `perform_check` (raise / skip via `None` / a result).
* Python's `sorted(list(set(xs)))` on strings becomes `dedupSort`.
-/

namespace CCC

/-- `schema.CheckResult`: values related to a particular check
(`src/cluster_compliance_checker/schema.py`). -/
structure CheckResult where
  result : Bool
  measured : String
  expected : String
  major_problem : Option String := none
deriving Repr, DecidableEq

/-- `schema.Check`: single measurement of some value. -/
structure Check where
  name : String
  description : String
  check : CheckResult
deriving Repr, DecidableEq

/-- `schema.Section`: group of related checks. -/
structure SectionReport where
  name : String
  description : String
  result : Bool
  checks : List Check
  major_problems : List String := []
deriving Repr, DecidableEq

/-- `schema.Report`: top-level class containing the entire result report. -/
structure Report where
  result : Bool
  sections : List SectionReport
  major_problems : List String := []
deriving Repr, DecidableEq

/-- Python's `sorted(list(set(xs)))` on a list of strings: the sorted list of
the distinct elements.  Both aggregation levels of `core.py` use this same
idiom (`Section._extract_major_problems` and `Core._extract_major_problems`). -/
def dedupSort (l : List String) : List String :=
  (l.dedup).insertionSort (· ≤ ·)

/-- The behaviour of one `perform_check` call of an `AbstractCheck` subclass:
it can raise an exception (the message is recorded), return `None` (skip), or
return a `CheckResult`. -/
structure CheckSpec where
  name : String
  description : String
  behavior : Except String (Option CheckResult)
deriving Repr

/-- `AbstractCheck.generate_report` (`core.py`, lines 73-89): perform the
check; any exception is caught and replaced by
`CheckResult(False, "Internal error", "Unknown")`; a `None` result means the
check is skipped and no record is produced; otherwise the outcome is wrapped
in a `schema.Check` record. -/
def generate_report (c : CheckSpec) : Option Check :=
  let check_result : Option CheckResult :=
    match c.behavior with
    | .error _ => some ⟨false, "Internal error", "Unknown", none⟩
    | .ok r => r
  match check_result with
  | none => none
  | some r => some ⟨c.name, c.description, r⟩

/-- `Section.run_all_checks` (`core.py`, lines 119-126): run every check of
the section, dropping the ones whose report is `None`. -/
def run_all_checks (l : List CheckSpec) : List Check :=
  l.filterMap generate_report

/-- `Section._extract_major_problems` (`core.py`, lines 136-147):
`sorted(list(set(check.check.major_problem for check in checks if ... is not None)))`. -/
def Section_extract_major_problems (checks : List Check) : List String :=
  dedupSort (checks.filterMap (fun c => c.check.major_problem))

/-- `Section.generate_report` (`core.py`, lines 161-179): run all checks; if
no record survives return `None`; otherwise the section result is the
conjunction of the check results and the major problems are extracted from
the surviving records. -/
def section_generate_report (name description : String) (l : List CheckSpec) :
    Option SectionReport :=
  let checks := run_all_checks l
  if checks.isEmpty then none
  else
    some ⟨name, description, checks.all (fun c => c.check.result), checks,
      Section_extract_major_problems checks⟩

/-- The behaviour of one section as seen by `Core.run_all_sections`: its
static `name`/`description`, the value of its `skip()` method, the outcome of
wiring its checks' dependencies (`dependencies.wire(section_class.checks)`,
the provisioning step), and the behaviours of its registered checks. -/
structure SectionSpec where
  name : String
  description : String
  skip : Bool
  provision : Except String Unit
  checks : List CheckSpec
deriving Repr

/-- `Section.failed_report` (`core.py`, lines 149-156). -/
def failed_report (s : SectionSpec) (major_problem : String) : SectionReport :=
  ⟨s.name, s.description, false, [], [major_problem]⟩

/-- One iteration of `Core.run_all_sections` (`core.py`, lines 199-222) for a
single section: skip it when `skip()` is true; if wiring the checks'
dependencies raises, yield `failed_report` with the provisioning fault;
otherwise yield the section's own report (dropped when `None`). -/
def run_section (s : SectionSpec) : Option SectionReport :=
  if s.skip then none
  else
    match s.provision with
    | .error _ =>
        some (failed_report s ("Failed to provision resources for section " ++ s.name))
    | .ok _ => section_generate_report s.name s.description s.checks

/-- `Core.run_all_sections` (`core.py`, lines 199-222) over the section list. -/
def run_all_sections (l : List SectionSpec) : List SectionReport :=
  l.filterMap run_section

/-- `Core._extract_major_problems` (`core.py`, lines 224-228):
`sorted(list(set(chain.from_iterable(section.major_problems ...))))`. -/
def Core_extract_major_problems (sections : List SectionReport) : List String :=
  dedupSort (sections.flatMap (fun s => s.major_problems))

/-- `Core.generate_report` (`core.py`, lines 230-238): run all sections and
fold the surviving section reports into the final `schema.Report`. -/
def Core_generate_report (l : List SectionSpec) : Report :=
  let sections := run_all_sections l
  ⟨sections.all (fun s => s.result), sections, Core_extract_major_problems sections⟩

/-! ## Class-level check registries

`Section.checks` in `core.py` is a class attribute holding a Python list
object.  To state the registry-independence and frame properties we embed the
relevant slice of Python's object model: every class name is bound to a
*reference* to a list object living on a heap; attribute assignment rebinds
the reference to a freshly allocated list, while `list.append` mutates the
list in place through the reference. -/

/-- The store of class-level `checks` registries: `env` maps a class name to
the heap reference of the list object currently bound to its `checks`
attribute, `heap` gives each reference's list contents (check class names),
and `next` is the next unused reference. -/
structure RegState where
  next : Nat
  env : String → Nat
  heap : Nat → List String

/-- Pointwise update of a function at one key. -/
def updateFn {α β : Type} [DecidableEq α] (f : α → β) (k : α) (v : β) : α → β :=
  fun x => if x = k then v else f x

/-- Reading `cls.checks` for class `c`. -/
def getChecks (st : RegState) (c : String) : List String :=
  st.heap (st.env c)

/-- `Section.__init_subclass__` (`core.py`, lines 102-108): each new subclass
executes `cls.checks = []`, binding its `checks` attribute to a freshly
allocated empty list object. -/
def initSubclass (st : RegState) (c : String) : RegState :=
  ⟨st.next + 1, updateFn st.env c st.next, updateFn st.heap st.next []⟩

/-- `Section.register` (`core.py`, lines 128-134): `cls.checks.append(copy(check_class))`
mutates, in place, the list object that `cls.checks` refers to.
(`copy.copy` of a class returns the very same class object — CPython's `copy`
module treats instances of `type` as atomic — so the appended entry is the
check class itself.) -/
def register (st : RegState) (c : String) (chk : String) : RegState :=
  { st with heap := updateFn st.heap (st.env c) (st.heap (st.env c) ++ [chk]) }

/-- `copy(find_section_class(module))` in `discovery.iter_sections`
(`discovery.py`, line 36): CPython's `copy.copy` dispatches instances of
`type` (classes) to `_copy_immutable`, which returns its argument unchanged,
so the "copy" of the section class is the original class object. -/
def copyClass (st : RegState) (c : String) : String × RegState :=
  (c, st)

/-- The attribute assignment `section_class.checks = list(filtered_checks)`
(`discovery.py`, line 41): binds the `checks` attribute of `section_class` to
a freshly allocated list object holding the given contents. -/
def setChecksAttr (st : RegState) (c : String) (l : List String) : RegState :=
  ⟨st.next + 1, updateFn st.env c st.next, updateFn st.heap st.next l⟩

/-- The run-specific filtering step of `discovery.iter_sections`
(`discovery.py`, lines 36-41) for one discovered section: take
`copy(find_section_class(module))` and, when a non-empty check filter is
given, rebind its `checks` attribute to the filtered list. -/
def filterSectionChecks (st : RegState) (c : String) (keep : List String) : RegState :=
  let sc := copyClass st c
  setChecksAttr sc.2 sc.1 ((getChecks sc.2 sc.1).filter (fun chk => keep.contains chk))

/-- A fresh registry store with no class initialised yet. -/
def emptyRegState : RegState :=
  ⟨1, fun _ => 0, fun _ => []⟩

/-! ## Spawner secret scope

`Spawner.secret` (`spawner.py`, lines 26-51) is a `@contextmanager` generator
used as `with spawner.secret(name, data) as s: body`.  We embed the cluster
state as the list of secret names present, and the scope body by its exit
mode: normal return, raising `ApiException`, or raising any other exception.
The Kubernetes API collaborator behaves as follows: reading a secret succeeds
iff it is present, creating an already-present secret raises `ApiException`
(HTTP 409 conflict), creating an absent one adds it, and deleting removes it.
The embedding below is the hand-traced behaviour of the generator under
CPython's `contextlib` protocol (`gen.throw` resumes the generator at the
active `yield`, so an `ApiException` raised by the body is caught by the
`except ApiException` clause that encloses the first `yield`). -/

/-- How the body of a `with spawner.secret(...)` block exits. -/
inductive BodyOutcome
  | normal
  | raiseApi
  | raiseOther
deriving Repr, DecidableEq

/-- The error conditions the secret scope can surface: the
`NoRegistryCredentials` checker error, a Kubernetes `ApiException`, or an
arbitrary other exception propagated from the body. -/
inductive SecretErr
  | noRegistryCredentials
  | apiError
  | otherError
deriving Repr, DecidableEq

deriving instance DecidableEq for Except

/-- Result of running a whole `with spawner.secret(...)` scope: the final
cluster state (names of secrets present), the outcome of the `with`
statement, and whether the body was entered (i.e. a secret was yielded). -/
structure SecretScopeResult where
  secrets : List String
  outcome : Except SecretErr Unit
  bodyRan : Bool
deriving Repr, DecidableEq

/-- `Spawner.secret` (`spawner.py`, lines 26-51), one full scope execution:

* secret present: it is yielded; a normal body or a non-`ApiException` error
  leaves the cluster untouched; a body raising `ApiException` is caught by the
  `except ApiException` around the `yield`, after which the generator either
  raises `NoRegistryCredentials` (no data) or falls into the creation path,
  whose `create` conflicts (409) and whose `finally` deletes the secret;
* secret absent, no data: `NoRegistryCredentials` is raised before any yield;
* secret absent, data given: the secret is created, yielded, and the
  `finally` deletes it on every exit path of the body. -/
def secretScope (secrets : List String) (name : String)
    (data : Option (List (String × String))) (body : BodyOutcome) :
    SecretScopeResult :=
  if name ∈ secrets then
    match body with
    | .normal => ⟨secrets, .ok (), true⟩
    | .raiseOther => ⟨secrets, .error .otherError, true⟩
    | .raiseApi =>
      match data with
      | none => ⟨secrets, .error .noRegistryCredentials, true⟩
      | some _ => ⟨secrets.erase name, .error .apiError, true⟩
  else
    match data with
    | none => ⟨secrets, .error .noRegistryCredentials, false⟩
    | some _ =>
      match body with
      | .normal => ⟨(name :: secrets).erase name, .ok (), true⟩
      | .raiseApi => ⟨(name :: secrets).erase name, .error .apiError, true⟩
      | .raiseOther => ⟨(name :: secrets).erase name, .error .otherError, true⟩

/-! ## Disk-performance check

`checks/disk_performance.py`, `BaseCheck._perform_check` (lines 82-94).  The
per-pod IOPS measurements are floats produced by `fio`; we model them as
rationals and keep the `measured`/`expected` payloads numeric (the source
renders them with `str(...)` / an f-string, which is presentation only). -/

/-- Python's `min` over a non-empty iterable, as an `Option` (empty input is
the `ValueError` case). -/
def listMin : List ℚ → Option ℚ
  | [] => none
  | x :: xs =>
    match listMin xs with
    | none => some x
    | some m => some (min x m)

/-- Outcome of `BaseCheck._perform_check`, with numeric payloads. -/
structure DiskCheckResult where
  result : Bool
  measured : ℚ
  expected : ℚ
deriving Repr, DecidableEq

/-- `BaseCheck._perform_check` (`checks/disk_performance.py`, lines 82-94),
as a function of the forced measurement sequences.  Mirroring the source's
bindings: `read_iops = self.measure_write_iops_on_each_pod()` and
`write_iops = self.measure_read_iops_on_each_pod()` (the two bindings are
swapped), then `min(itertools.chain(write_iops, read_iops))`; an empty chain
(`ValueError`) makes the check return `None` (skip); otherwise the result is
`min_measured_iops >= self.iops_threshold`. -/
def disk_perform_check (writeMeasured readMeasured : List ℚ) (iops_threshold : ℚ) :
    Option DiskCheckResult :=
  let read_iops := writeMeasured
  let write_iops := readMeasured
  match listMin (write_iops ++ read_iops) with
  | none => none
  | some min_measured_iops =>
      some ⟨iops_threshold ≤ min_measured_iops, min_measured_iops, iops_threshold⟩

/-! ## Poller (`util.wait_for`)

`util.py`, lines 31-37.  Wall-clock time is modelled as rationals.  A run of
the loop is driven by a `WaitEnv`: `cond i` is the value of the `i`-th call
of `condition` when that value is truthy (`none` when it is falsy, which
includes `None` — the walrus `if return_value := condition():` tests
truthiness), `condTime i` is the wall time the `i`-th call consumes, and
`sleepTime i` the wall time the `i`-th `time.sleep(interval)` consumes (real
sleeps last at least, and in practice about, `interval`; theorems carry those
bounds as hypotheses).  The `start_time`/`perf_counter` pair is modelled by
tracking the elapsed time, starting at `0` at the first loop guard. -/

structure WaitEnv (T : Type) where
  cond : Nat → Option T
  condTime : Nat → ℚ
  sleepTime : Nat → ℚ

/-- What a terminating run of `wait_for` produces: either the first truthy
condition value, with the elapsed time at the moment of return and the number
of condition calls made, or a raised `TimeoutError`, with the elapsed time at
the failing loop guard and the number of condition calls made. -/
inductive WaitOutcome (T : Type)
  | value (v : T) (elapsed : ℚ) (calls : Nat)
  | timedOut (elapsed : ℚ) (calls : Nat)
deriving Repr, DecidableEq

/-- The loop of `util.wait_for` (`util.py`, lines 32-37), with explicit fuel:
`i` is the index of the next condition call and `elapsed` the current value
of `time.perf_counter() - start_time`.  `none` means the fuel ran out before
the loop terminated (the theorems always supply enough fuel). -/
def waitForAux (env : WaitEnv T) (timeout : ℚ) : Nat → Nat → ℚ → Option (WaitOutcome T)
  | 0, _, _ => none
  | fuel + 1, i, elapsed =>
    if elapsed < timeout then
      match env.cond i with
      | some v => some (.value v (elapsed + env.condTime i) (i + 1))
      | none => waitForAux env timeout fuel (i + 1) (elapsed + env.condTime i + env.sleepTime i)
    else some (.timedOut elapsed i)

/-- `util.wait_for` (`util.py`, lines 31-37): run the loop from elapsed time
`0` and condition call index `0`. -/
def wait_for (env : WaitEnv T) (timeout : ℚ) (fuel : Nat) : Option (WaitOutcome T) :=
  waitForAux env timeout fuel 0 0

/-- The elapsed time at which the `i`-th loop guard (and hence the `i`-th
condition call, when the guard passes) happens. -/
def guardTime (env : WaitEnv T) : Nat → ℚ
  | 0 => 0
  | i + 1 => guardTime env i + env.condTime i + env.sleepTime i

/-- Number of condition calls a finished `wait_for` run made. -/
def WaitOutcome.calls : WaitOutcome T → Nat
  | .value _ _ n => n
  | .timedOut _ n => n

/-! ## Helper lemmas -/

theorem dedupSort_nodup (l : List String) : (dedupSort l).Nodup :=
  ((l.dedup.perm_insertionSort (· ≤ ·)).symm).nodup (l.nodup_dedup)

theorem dedupSort_sorted (l : List String) : (dedupSort l).Sorted (· ≤ ·) :=
  List.sorted_insertionSort (· ≤ ·) l.dedup

theorem mem_dedupSort {a : String} {l : List String} : a ∈ dedupSort l ↔ a ∈ l :=
  (l.dedup.perm_insertionSort (· ≤ ·)).mem_iff.trans List.mem_dedup

theorem listMin_eq_none : ∀ {l : List ℚ}, listMin l = none ↔ l = [] := by
  intro l
  cases l with
  | nil => simp [listMin]
  | cons x xs =>
    simp only [listMin]
    cases listMin xs <;> simp

theorem listMin_spec : ∀ {l : List ℚ} {m : ℚ}, listMin l = some m →
    m ∈ l ∧ ∀ x ∈ l, m ≤ x := by
  intro l
  induction l with
  | nil => intro m h; simp [listMin] at h
  | cons x xs ih =>
    intro m h
    unfold listMin at h
    cases hxs : listMin xs with
    | none =>
      rw [hxs] at h
      simp at h
      rw [listMin_eq_none] at hxs
      subst hxs
      subst h
      simp
    | some m' =>
      rw [hxs] at h
      simp at h
      obtain ⟨hm', hall⟩ := ih hxs
      subst h
      constructor
      · rcases le_total x m' with hle | hle
        · simp [min_eq_left hle]
        · right
          rwa [min_eq_right hle]
      · intro z hz
        rcases List.mem_cons.mp hz with hz | hz
        · subst hz; exact min_le_left _ _
        · exact le_trans (min_le_right _ _) (hall z hz)

theorem listMin_isSome : ∀ {l : List ℚ}, l ≠ [] → ∃ m, listMin l = some m := by
  intro l h
  cases l with
  | nil => exact absurd rfl h
  | cons x xs =>
    unfold listMin
    cases listMin xs with
    | none => exact ⟨x, rfl⟩
    | some m => exact ⟨min x m, rfl⟩

theorem guardTime_mono (env : WaitEnv T) (hc : ∀ k, 0 ≤ env.condTime k)
    (hs : ∀ k, 0 ≤ env.sleepTime k) :
    ∀ k j : Nat, k ≤ j → guardTime env k ≤ guardTime env j := by
  intro k j hkj
  induction hkj with
  | refl => exact le_refl _
  | @step m h ih =>
    refine le_trans ih ?_
    simp only [guardTime]
    linarith [hc m, hs m]

theorem waitForAux_first_truthy (env : WaitEnv T) (timeout : ℚ) (j : Nat) (v : T)
    (hfirst : ∀ k, k < j → env.cond k = none) (hj : env.cond j = some v)
    (hguard : ∀ k, k ≤ j → guardTime env k < timeout) :
    ∀ fuel i, i ≤ j → j < i + fuel →
      waitForAux env timeout fuel i (guardTime env i) =
        some (.value v (guardTime env j + env.condTime j) (j + 1)) := by
  intro fuel
  induction fuel with
  | zero => intro i hij hji; omega
  | succ n ih =>
    intro i hij hji
    unfold waitForAux
    rw [if_pos (hguard i hij)]
    rcases Nat.lt_or_ge i j with hlt | hge
    · rw [hfirst i hlt]
      have hg : guardTime env i + env.condTime i + env.sleepTime i = guardTime env (i + 1) :=
        rfl
      rw [hg]
      exact ih (i + 1) hlt (by omega)
    · have hij' : i = j := le_antisymm hij hge
      subst hij'
      rw [hj]

theorem waitForAux_timeout_run (env : WaitEnv T) (timeout interval D S : ℚ)
    (hcond : ∀ k, env.cond k = none)
    (hc0 : ∀ k, 0 ≤ env.condTime k) (hcD : ∀ k, env.condTime k ≤ D)
    (hsi : ∀ k, interval ≤ env.sleepTime k) (hsS : ∀ k, env.sleepTime k ≤ S) :
    ∀ (fuel i : Nat) (e : ℚ), timeout ≤ e + (fuel : ℚ) * interval →
      ∃ e2 n, waitForAux env timeout (fuel + 1) i e = some (.timedOut e2 n) ∧
        timeout ≤ e2 ∧ (e2 = e ∨ e2 < timeout + D + S) := by
  intro fuel
  induction fuel with
  | zero =>
    intro i e he
    simp only [Nat.cast_zero, zero_mul, add_zero] at he
    refine ⟨e, i, ?_, he, Or.inl rfl⟩
    unfold waitForAux
    rw [if_neg (not_lt.mpr he)]
  | succ n ih =>
    intro i e he
    by_cases hlt : e < timeout
    · have hstep : timeout ≤ (e + env.condTime i + env.sleepTime i) + (n : ℚ) * interval := by
        have h1 := hc0 i
        have h2 := hsi i
        push_cast at he
        linarith
      obtain ⟨e2, m, heq, hge, hcase⟩ := ih (i + 1) _ hstep
      refine ⟨e2, m, ?_, hge, ?_⟩
      · unfold waitForAux
        rw [if_pos hlt, hcond i]
        exact heq
      · rcases hcase with rfl | hlt2
        · have h3 := hcD i
          have h4 := hsS i
          exact Or.inr (by linarith)
        · exact Or.inr hlt2
    · refine ⟨e, i, ?_, not_lt.mp hlt, Or.inl rfl⟩
      unfold waitForAux
      rw [if_neg hlt]

theorem waitForAux_calls_guarded (env : WaitEnv T) (timeout : ℚ) :
    ∀ fuel i w, waitForAux env timeout fuel i (guardTime env i) = some w →
      ∀ j, i ≤ j → j < w.calls → guardTime env j < timeout := by
  intro fuel
  induction fuel with
  | zero => intro i w h; simp [waitForAux] at h
  | succ n ih =>
    intro i w h j hij hjw
    unfold waitForAux at h
    by_cases hlt : guardTime env i < timeout
    · rw [if_pos hlt] at h
      cases hc : env.cond i with
      | some v =>
        rw [hc] at h
        have hw : w = .value v (guardTime env i + env.condTime i) (i + 1) :=
          (Option.some.injEq _ _ ▸ h).symm
        subst hw
        have : j = i := by
          simp only [WaitOutcome.calls] at hjw
          omega
        subst this
        exact hlt
      | none =>
        rw [hc] at h
        rcases Nat.eq_or_lt_of_le hij with rfl | hlt2
        · exact hlt
        · have hg : guardTime env i + env.condTime i + env.sleepTime i =
              guardTime env (i + 1) := rfl
          rw [hg] at h
          exact ih (i + 1) w h j hlt2 hjw
    · rw [if_neg hlt] at h
      have hw : w = .timedOut (guardTime env i) i := (Option.some.injEq _ _ ▸ h).symm
      subst hw
      simp only [WaitOutcome.calls] at hjw
      omega

/-! ## Claim theorems -/

/-- C1: for every check whose `perform_check` raises an uncaught exception,
`generate_report` does not propagate the exception: it returns a record whose
outcome is `CheckResult(False, "Internal error", "Unknown")`, and inside
`run_all_checks` the crashing check contributes exactly that record while the
sibling checks' records are unaffected. -/
theorem crashing_check_contained (c : CheckSpec) (e : String)
    (h : c.behavior = .error e) :
    generate_report c =
      some ⟨c.name, c.description, ⟨false, "Internal error", "Unknown", none⟩⟩ ∧
    ∀ pre post : List CheckSpec,
      run_all_checks (pre ++ c :: post) =
        run_all_checks pre ++
          ⟨c.name, c.description, ⟨false, "Internal error", "Unknown", none⟩⟩ ::
            run_all_checks post := by
  have h1 : generate_report c =
      some ⟨c.name, c.description, ⟨false, "Internal error", "Unknown", none⟩⟩ := by
    unfold generate_report
    rw [h]
  refine ⟨h1, fun pre post => ?_⟩
  simp [run_all_checks, List.filterMap_append, List.filterMap_cons, h1]

/-- Witness for C1 at a concrete crashing check between two sibling checks. -/
theorem crashing_check_contained_witness :
    generate_report ⟨"crash", "d", .error "boom"⟩ =
      some ⟨"crash", "d", ⟨false, "Internal error", "Unknown", none⟩⟩ ∧
    run_all_checks
        ([⟨"a", "", .ok (some ⟨true, "1", "2", none⟩)⟩] ++
          ⟨"crash", "d", .error "boom"⟩ :: [⟨"b", "", .ok (some ⟨false, "3", "4", none⟩)⟩]) =
      run_all_checks [⟨"a", "", .ok (some ⟨true, "1", "2", none⟩)⟩] ++
        ⟨"crash", "d", ⟨false, "Internal error", "Unknown", none⟩⟩ ::
          run_all_checks [⟨"b", "", .ok (some ⟨false, "3", "4", none⟩)⟩] :=
  ⟨(crashing_check_contained ⟨"crash", "d", .error "boom"⟩ "boom" rfl).1,
    (crashing_check_contained ⟨"crash", "d", .error "boom"⟩ "boom" rfl).2
      [⟨"a", "", .ok (some ⟨true, "1", "2", none⟩)⟩]
      [⟨"b", "", .ok (some ⟨false, "3", "4", none⟩)⟩]⟩

/-- C2: for every non-skipped section whose dependency provisioning raises,
`run_all_sections` yields a report with `result = false`, an empty check
list, and exactly the one fault
`"Failed to provision resources for section <name>"`; none of the section's
checks matters for that report, and the sibling sections are processed
exactly as they would be on their own. -/
theorem provisioning_failure_isolated (s : SectionSpec) (e : String)
    (hskip : s.skip = false) (hprov : s.provision = .error e) :
    run_section s =
      some ⟨s.name, s.description, false, [],
        ["Failed to provision resources for section " ++ s.name]⟩ ∧
    (∀ cs, run_section { s with checks := cs } = run_section s) ∧
    ∀ pre post : List SectionSpec,
      run_all_sections (pre ++ s :: post) =
        run_all_sections pre ++
          ⟨s.name, s.description, false, [],
            ["Failed to provision resources for section " ++ s.name]⟩ ::
            run_all_sections post := by
  have h1 : run_section s =
      some ⟨s.name, s.description, false, [],
        ["Failed to provision resources for section " ++ s.name]⟩ := by
    unfold run_section
    rw [hskip, hprov]
    rfl
  refine ⟨h1, fun cs => ?_, fun pre post => ?_⟩
  · unfold run_section
    rw [hskip, hprov]
    rfl
  · simp [run_all_sections, List.filterMap_append, List.filterMap_cons, h1]

/-- Witness for C2 at a concrete failing section between two healthy ones. -/
theorem provisioning_failure_isolated_witness :
    run_section ⟨"Net", "d", false, .error "wire failed", [⟨"c", "", .ok none⟩]⟩ =
      some ⟨"Net", "d", false, [], ["Failed to provision resources for section Net"]⟩ ∧
    run_section ⟨"Net", "d", false, .error "wire failed", ([] : List CheckSpec)⟩ =
      run_section ⟨"Net", "d", false, .error "wire failed", [⟨"c", "", .ok none⟩]⟩ ∧
    run_all_sections
        ([⟨"A", "", false, .ok (), [⟨"a", "", .ok (some ⟨true, "", "", none⟩)⟩]⟩] ++
          ⟨"Net", "d", false, .error "wire failed", [⟨"c", "", .ok none⟩]⟩ :: []) =
      run_all_sections [⟨"A", "", false, .ok (), [⟨"a", "", .ok (some ⟨true, "", "", none⟩)⟩]⟩] ++
        ⟨"Net", "d", false, [], ["Failed to provision resources for section Net"]⟩ ::
          run_all_sections [] := by
  refine ⟨(provisioning_failure_isolated _ "wire failed" rfl rfl).1,
    (provisioning_failure_isolated
      ⟨"Net", "d", false, .error "wire failed", [⟨"c", "", .ok none⟩]⟩
      "wire failed" rfl rfl).2.1 [],
    (provisioning_failure_isolated _ "wire failed" rfl rfl).2.2
      [⟨"A", "", false, .ok (), [⟨"a", "", .ok (some ⟨true, "", "", none⟩)⟩]⟩] []⟩

/-- C3: the section result is the conjunction of its surviving checks'
results and the report result is the conjunction of the section results
(vacuously `true`, with an empty fault list, when no section produced a
record); at both levels the fault list is exactly `dedupSort` — the shared
sort-the-deduplicated-set algorithm — of the constituent fault strings, and
is therefore duplicate-free and sorted, with membership exactly the
constituent fault strings. -/
theorem aggregation_and_dedup (ss : List SectionSpec)
    (name description : String) (l : List CheckSpec) :
    (Core_generate_report ss).result = (run_all_sections ss).all (fun s => s.result) ∧
    (Core_generate_report ss).major_problems =
      dedupSort ((run_all_sections ss).flatMap (fun s => s.major_problems)) ∧
    (Core_generate_report ss).major_problems.Nodup ∧
    (Core_generate_report ss).major_problems.Sorted (· ≤ ·) ∧
    (∀ a, a ∈ (Core_generate_report ss).major_problems ↔
      a ∈ (run_all_sections ss).flatMap (fun s => s.major_problems)) ∧
    (run_all_sections ss = [] → Core_generate_report ss = ⟨true, [], []⟩) ∧
    (∀ sec, section_generate_report name description l = some sec →
      sec.result = sec.checks.all (fun c => c.check.result) ∧
      sec.major_problems = dedupSort (sec.checks.filterMap (fun c => c.check.major_problem)) ∧
      sec.major_problems.Nodup ∧
      sec.major_problems.Sorted (· ≤ ·) ∧
      ∀ a, a ∈ sec.major_problems ↔
        a ∈ sec.checks.filterMap (fun c => c.check.major_problem)) := by
  refine ⟨rfl, rfl, dedupSort_nodup _, dedupSort_sorted _, fun a => mem_dedupSort,
    fun h => ?_, fun sec h => ?_⟩
  · simp [Core_generate_report, h, Core_extract_major_problems, dedupSort]
  · unfold section_generate_report at h
    by_cases he : (run_all_checks l).isEmpty
    · simp [he] at h
    · simp only [he, Bool.false_eq_true, if_false, Option.some.injEq] at h
      subst h
      exact ⟨rfl, rfl, dedupSort_nodup _, dedupSort_sorted _, fun a => mem_dedupSort⟩

/-- Witness for C3: the empty run yields the vacuous report, and a concrete
section whose checks report the fault `"p1"` twice aggregates it once. -/
theorem aggregation_and_dedup_witness :
    Core_generate_report [] = ⟨true, [], []⟩ ∧
    (some (⟨"S", "d", false,
        [⟨"a", "", ⟨false, "", "", some "p1"⟩⟩, ⟨"b", "", ⟨false, "", "", some "p1"⟩⟩,
          ⟨"c", "", ⟨true, "", "", none⟩⟩],
        ["p1"]⟩ : SectionReport) : Option SectionReport) =
      section_generate_report "S" "d"
        [⟨"a", "", .ok (some ⟨false, "", "", some "p1"⟩)⟩,
          ⟨"b", "", .ok (some ⟨false, "", "", some "p1"⟩)⟩,
          ⟨"c", "", .ok (some ⟨true, "", "", none⟩)⟩] ∧
    (["p1"] : List String).Nodup := by
  have hsec : section_generate_report "S" "d"
      [⟨"a", "", .ok (some ⟨false, "", "", some "p1"⟩)⟩,
        ⟨"b", "", .ok (some ⟨false, "", "", some "p1"⟩)⟩,
        ⟨"c", "", .ok (some ⟨true, "", "", none⟩)⟩] =
      some ⟨"S", "d", false,
        [⟨"a", "", ⟨false, "", "", some "p1"⟩⟩, ⟨"b", "", ⟨false, "", "", some "p1"⟩⟩,
          ⟨"c", "", ⟨true, "", "", none⟩⟩],
        ["p1"]⟩ := by decide
  refine ⟨(aggregation_and_dedup [] "S" "d" []).2.2.2.2.2.1 rfl, hsec.symm, ?_⟩
  have h2 := ((aggregation_and_dedup [] "S" "d"
    [⟨"a", "", .ok (some ⟨false, "", "", some "p1"⟩)⟩,
      ⟨"b", "", .ok (some ⟨false, "", "", some "p1"⟩)⟩,
      ⟨"c", "", .ok (some ⟨true, "", "", none⟩)⟩]).2.2.2.2.2.2 _ hsec).2.2.1
  exact h2

/-- C4: sibling `Section` subtypes own independent check registries.
Creating two subclasses `A` and `B` over any prior registry state binds their
`checks` attributes to two distinct fresh list objects, both empty;
registering a check class on `B` appends it to `B`'s own list and leaves
`A`'s list untouched, so the check never appears in `A`'s list. -/
theorem registry_independence (st : RegState) (A B chk : String) (hAB : A ≠ B) :
    (initSubclass (initSubclass st A) B).env A ≠ (initSubclass (initSubclass st A) B).env B ∧
    getChecks (initSubclass (initSubclass st A) B) A = [] ∧
    getChecks (initSubclass (initSubclass st A) B) B = [] ∧
    getChecks (register (initSubclass (initSubclass st A) B) B chk) B =
      getChecks (initSubclass (initSubclass st A) B) B ++ [chk] ∧
    getChecks (register (initSubclass (initSubclass st A) B) B chk) A =
      getChecks (initSubclass (initSubclass st A) B) A ∧
    chk ∉ getChecks (register (initSubclass (initSubclass st A) B) B chk) A := by
  have hne : st.next ≠ st.next + 1 := by omega
  refine ⟨?_, ?_, ?_, ?_, ?_, ?_⟩ <;>
    simp [initSubclass, register, getChecks, updateFn, hAB, hne]

/-- Witness for C4 with two concrete sibling sections. -/
theorem registry_independence_witness :
    (initSubclass (initSubclass emptyRegState "FooSection") "BarSection").env "FooSection" ≠
      (initSubclass (initSubclass emptyRegState "FooSection") "BarSection").env "BarSection" ∧
    getChecks (initSubclass (initSubclass emptyRegState "FooSection") "BarSection")
      "FooSection" = [] ∧
    getChecks (initSubclass (initSubclass emptyRegState "FooSection") "BarSection")
      "BarSection" = [] ∧
    getChecks (register (initSubclass (initSubclass emptyRegState "FooSection") "BarSection")
        "BarSection" "FoobarCheck1") "BarSection" =
      getChecks (initSubclass (initSubclass emptyRegState "FooSection") "BarSection")
        "BarSection" ++ ["FoobarCheck1"] ∧
    getChecks (register (initSubclass (initSubclass emptyRegState "FooSection") "BarSection")
        "BarSection" "FoobarCheck1") "FooSection" =
      getChecks (initSubclass (initSubclass emptyRegState "FooSection") "BarSection")
        "FooSection" ∧
    "FoobarCheck1" ∉
      getChecks (register (initSubclass (initSubclass emptyRegState "FooSection") "BarSection")
        "BarSection" "FoobarCheck1") "FooSection" :=
  registry_independence emptyRegState "FooSection" "BarSection" "FoobarCheck1" (by decide)

/-- C5 fails on the code: `copy(...)` in `discovery.iter_sections` returns
the original section class itself, so the filtering assignment rebinds the
`checks` attribute of the original class.  After one filtered discovery over
a class `S` with registered checks `A` and `B`, reading `S.checks` yields the
filtered list `[A]`, not the full registry. -/
theorem filter_mutates_original_registry :
    getChecks (register (register (initSubclass emptyRegState "S") "S" "A") "S" "B") "S" =
      ["A", "B"] ∧
    getChecks
        (filterSectionChecks
          (register (register (initSubclass emptyRegState "S") "S" "A") "S" "B") "S" ["A"])
        "S" = ["A"] ∧
    getChecks
        (filterSectionChecks
          (register (register (initSubclass emptyRegState "S") "S" "A") "S" "B") "S" ["A"])
        "S" ≠
      getChecks (register (register (initSubclass emptyRegState "S") "S" "A") "S" "B") "S" := by
  refine ⟨?_, ?_, ?_⟩ <;> decide

/-- C6: skips propagate without leaving a trace: a check whose
`perform_check` returns `None` produces no record, and a section all of
whose checks return `None` — or with no registered checks at all — produces
no section record. -/
theorem skip_propagates (c : CheckSpec) (hc : c.behavior = .ok none)
    (name description : String) (l : List CheckSpec)
    (hl : ∀ d ∈ l, d.behavior = .ok none) :
    generate_report c = none ∧
    section_generate_report name description l = none ∧
    section_generate_report name description [] = none := by
  refine ⟨?_, ?_, rfl⟩
  · unfold generate_report
    rw [hc]
  · have hnil : run_all_checks l = [] := by
      unfold run_all_checks
      rw [List.filterMap_eq_nil_iff]
      intro d hd
      unfold generate_report
      rw [hl d hd]
    unfold section_generate_report
    rw [hnil]
    rfl

/-- Witness for C6 at a concrete skipped check and all-skipped section. -/
theorem skip_propagates_witness :
    generate_report ⟨"SkippedCheck", "", .ok none⟩ = none ∧
    section_generate_report "Foo" "" [⟨"SkippedCheck", "", .ok none⟩,
      ⟨"OtherSkipped", "", .ok none⟩] = none ∧
    section_generate_report "Foo" "" [] = none :=
  skip_propagates ⟨"SkippedCheck", "", .ok none⟩ rfl "Foo" ""
    [⟨"SkippedCheck", "", .ok none⟩, ⟨"OtherSkipped", "", .ok none⟩]
    (by
      intro d hd
      simp only [List.mem_cons, List.not_mem_nil, or_false] at hd
      rcases hd with rfl | rfl <;> rfl)

/-- C7 fails as stated: a secret that already exists before the scope *can*
be deleted on scope exit.  Concretely, with secret `regcred` present, data
provided, and a scope body that raises `ApiException`, the exception is
caught by the `except ApiException` clause enclosing the `yield`, the code
falls into the creation path, and its `finally` deletes the pre-existing
secret. -/
theorem preexisting_secret_deleted :
    "regcred" ∈ (["regcred"] : List String) ∧
    secretScope ["regcred"] "regcred" (some [("user", "pass")]) .raiseApi =
      ⟨[], .error .apiError, true⟩ ∧
    "regcred" ∉
      (secretScope ["regcred"] "regcred" (some [("user", "pass")]) .raiseApi).secrets := by
  refine ⟨?_, ?_, ?_⟩ <;> decide

/-- C7 amended: for every invocation of the secret scope — if the secret
exists it is yielded, and it is not deleted on scope exit *unless* the body
raises the API-exception type while data is provided, in which case the
scope erases it and surfaces the API error; if it is absent and data is
provided, a new secret is created and deleted on every exit path; if it is
absent and no data is provided, the scope fails with the missing-credentials
error without running the body or creating any object. -/
theorem secret_scope_lifecycle (secrets : List String) (name : String)
    (data : Option (List (String × String))) (body : BodyOutcome) :
    (name ∈ secrets → body = .normal →
      secretScope secrets name data body = ⟨secrets, .ok (), true⟩) ∧
    (name ∈ secrets → body = .raiseOther →
      secretScope secrets name data body = ⟨secrets, .error .otherError, true⟩) ∧
    (name ∈ secrets → body = .raiseApi → data = none →
      secretScope secrets name data body = ⟨secrets, .error .noRegistryCredentials, true⟩) ∧
    (name ∈ secrets → body = .raiseApi → ∀ d, data = some d →
      secretScope secrets name data body = ⟨secrets.erase name, .error .apiError, true⟩) ∧
    (name ∉ secrets → data = none →
      secretScope secrets name data body = ⟨secrets, .error .noRegistryCredentials, false⟩) ∧
    (name ∉ secrets → ∀ d, data = some d →
      (secretScope secrets name data body).secrets = secrets ∧
      name ∉ (secretScope secrets name data body).secrets ∧
      (secretScope secrets name data body).bodyRan = true ∧
      (secretScope secrets name data body).outcome =
        (match body with
          | .normal => .ok ()
          | .raiseApi => .error .apiError
          | .raiseOther => .error .otherError)) := by
  refine ⟨?_, ?_, ?_, ?_, ?_, ?_⟩
  · intro hmem hb
    subst hb
    simp [secretScope, hmem]
  · intro hmem hb
    subst hb
    simp [secretScope, hmem]
  · intro hmem hb hd
    subst hb
    subst hd
    simp [secretScope, hmem]
  · intro hmem hb d hd
    subst hb
    subst hd
    simp [secretScope, hmem]
  · intro hmem hd
    subst hd
    simp [secretScope, hmem]
  · intro hmem d hd
    subst hd
    have herase : (name :: secrets).erase name = secrets := List.erase_cons_head name secrets
    cases body <;> simp [secretScope, hmem, herase]

/-- Witness for C7 (amended), exercising the scope at concrete inputs:
a pre-existing secret with a normal body is kept; an absent secret with data
is created, the body runs, and the secret is gone afterwards; an absent
secret without data fails with the missing-credentials error. -/
theorem secret_scope_lifecycle_witness :
    secretScope ["regcred"] "regcred" none .normal = ⟨["regcred"], .ok (), true⟩ ∧
    (secretScope ["other"] "regcred" (some [("user", "pass")]) .normal).secrets = ["other"] ∧
    secretScope ["other"] "regcred" none .normal =
      ⟨["other"], .error .noRegistryCredentials, false⟩ :=
  ⟨(secret_scope_lifecycle ["regcred"] "regcred" none .normal).1 (by decide) rfl,
    ((secret_scope_lifecycle ["other"] "regcred" (some [("user", "pass")]) .normal).2.2.2.2.2
      (by decide) [("user", "pass")] rfl).1,
    (secret_scope_lifecycle ["other"] "regcred" none .normal).2.2.2.2.1 (by decide) rfl⟩

/-- C8: `wait_for` returns the condition's value at the first truthy
("non-empty") evaluation, which happens while the elapsed time is still
below the timeout; and when the condition never yields a value, `wait_for`
raises `TimeoutError` at an elapsed time of at least `timeout` and — given
that each condition call costs at most `D` and each sleep lasts between
`interval` and `S` — strictly below `timeout + D + S`. -/
theorem wait_for_first_value_and_timeout_bound :
    (∀ (T : Type) (env : WaitEnv T) (timeout : ℚ) (j : Nat) (v : T) (fuel : Nat),
      (∀ k, 0 ≤ env.condTime k) → (∀ k, 0 ≤ env.sleepTime k) →
      (∀ k, k < j → env.cond k = none) → env.cond j = some v →
      guardTime env j < timeout → j < fuel →
      wait_for env timeout fuel =
        some (.value v (guardTime env j + env.condTime j) (j + 1))) ∧
    (∀ (T : Type) (env : WaitEnv T) (timeout interval D S : ℚ) (fuel : Nat),
      (∀ k, env.cond k = none) →
      (∀ k, 0 ≤ env.condTime k) → (∀ k, env.condTime k ≤ D) →
      (∀ k, interval ≤ env.sleepTime k) → (∀ k, env.sleepTime k ≤ S) →
      0 < timeout → timeout ≤ (fuel : ℚ) * interval →
      ∃ e n, wait_for env timeout (fuel + 1) = some (.timedOut e n) ∧
        timeout ≤ e ∧ e < timeout + D + S) := by
  constructor
  · intro T env timeout j v fuel hc0 hs0 hfirst hj hguard hfuel
    have hg : ∀ k, k ≤ j → guardTime env k < timeout := fun k hk =>
      lt_of_le_of_lt (guardTime_mono env hc0 hs0 k j hk) hguard
    exact waitForAux_first_truthy env timeout j v hfirst hj hg fuel 0 (Nat.zero_le j)
      (by omega)
  · intro T env timeout interval D S fuel hcond hc0 hcD hsi hsS htpos hfuel
    obtain ⟨e2, n, heq, hge, hcase⟩ :=
      waitForAux_timeout_run env timeout interval D S hcond hc0 hcD hsi hsS fuel 0 0
        (by simpa using hfuel)
    refine ⟨e2, n, heq, hge, ?_⟩
    rcases hcase with rfl | hlt
    · exact absurd htpos (not_lt.mpr hge)
    · exact hlt

/-- Witness for C8: a condition that becomes truthy at its second call is
returned with its value, and an always-falsy condition times out between
`timeout` and `timeout + D + S`. -/
theorem wait_for_first_value_and_timeout_bound_witness :
    wait_for (⟨fun i => if i = 1 then some 42 else none, fun _ => 0, fun _ => 1⟩ :
        WaitEnv Nat) 5 3 =
      some (.value 42
        (guardTime (⟨fun i => if i = 1 then some 42 else none, fun _ => 0, fun _ => 1⟩ :
          WaitEnv Nat) 1 +
          (⟨fun i => if i = 1 then some 42 else none, fun _ => 0, fun _ => 1⟩ :
            WaitEnv Nat).condTime 1)
        2) ∧
    ∃ e n, wait_for (⟨fun _ => none, fun _ => 0, fun _ => 1⟩ : WaitEnv Nat) 2 3 =
        some (.timedOut e n) ∧ 2 ≤ e ∧ e < 2 + 0 + 1 := by
  constructor
  · exact wait_for_first_value_and_timeout_bound.1 Nat
      ⟨fun i => if i = 1 then some 42 else none, fun _ => 0, fun _ => 1⟩ 5 1 42 3
      (fun k => le_refl 0) (fun k => zero_le_one)
      (by intro k hk; interval_cases k; rfl) rfl
      (by norm_num [guardTime]) (by norm_num)
  · exact wait_for_first_value_and_timeout_bound.2 Nat
      ⟨fun _ => none, fun _ => 0, fun _ => 1⟩ 2 1 0 1 2
      (fun k => rfl) (fun k => le_refl 0) (fun k => le_refl 0)
      (fun k => le_refl 1) (fun k => le_refl 1) (by norm_num) (by norm_num)

/-- C9: on a non-empty combined measurement set, the disk-performance check
reports the minimum over the union of both measured IOPS sequences —
regardless of which generator is bound to the `read_iops` or `write_iops`
name — and its boolean result is whether that minimum reaches the
threshold. -/
theorem disk_check_min_over_union (writeMeasured readMeasured : List ℚ) (thr : ℚ)
    (h : writeMeasured ++ readMeasured ≠ []) :
    ∃ m, disk_perform_check writeMeasured readMeasured thr =
        some ⟨decide (thr ≤ m), m, thr⟩ ∧
      (m ∈ writeMeasured ∨ m ∈ readMeasured) ∧
      (∀ x ∈ writeMeasured, m ≤ x) ∧ (∀ x ∈ readMeasured, m ≤ x) := by
  have h2 : readMeasured ++ writeMeasured ≠ [] := by
    intro hc
    rw [List.append_eq_nil] at hc
    exact h (by simp [hc.1, hc.2])
  obtain ⟨m, hm⟩ := listMin_isSome h2
  obtain ⟨hmem, hle⟩ := listMin_spec hm
  refine ⟨m, ?_, ?_, ?_, ?_⟩
  · show (match listMin (readMeasured ++ writeMeasured) with
      | none => none
      | some mi => some (⟨decide (thr ≤ mi), mi, thr⟩ : DiskCheckResult)) =
        some ⟨decide (thr ≤ m), m, thr⟩
    rw [hm]
  · rcases List.mem_append.mp hmem with hr | hw
    · exact Or.inr hr
    · exact Or.inl hw
  · intro x hx
    exact hle x (List.mem_append.mpr (Or.inr hx))
  · intro x hx
    exact hle x (List.mem_append.mpr (Or.inl hx))

/-- Witness for C9 at concrete measurements `[3]` (write) and `[5, 2]`
(read) with threshold `3`: the minimum `2` comes from the read sequence and
fails the threshold. -/
theorem disk_check_min_over_union_witness :
    ∃ m, disk_perform_check [3] [5, 2] 3 = some ⟨decide ((3 : ℚ) ≤ m), m, 3⟩ ∧
      (m ∈ ([3] : List ℚ) ∨ m ∈ ([5, 2] : List ℚ)) ∧
      (∀ x ∈ ([3] : List ℚ), m ≤ x) ∧ (∀ x ∈ ([5, 2] : List ℚ), m ≤ x) :=
  disk_check_min_over_union [3] [5, 2] 3 (by decide)

/-- C10: `wait_for` with a non-positive timeout raises `TimeoutError` at
elapsed time `0` having made zero condition calls, and in general every
condition call of a finished run happens at an elapsed time strictly below
the timeout. -/
theorem wait_for_no_calls_after_deadline (T : Type) (env : WaitEnv T)
    (timeout : ℚ) (fuel : Nat) :
    (timeout ≤ 0 → 0 < fuel → wait_for env timeout fuel = some (.timedOut 0 0)) ∧
    (∀ w, wait_for env timeout fuel = some w →
      ∀ j, j < w.calls → guardTime env j < timeout) := by
  constructor
  · intro ht hf
    obtain ⟨n, rfl⟩ := Nat.exists_eq_succ_of_ne_zero (Nat.pos_iff_ne_zero.mp hf)
    unfold wait_for waitForAux
    rw [if_neg (not_lt.mpr ht)]
  · intro w h j hj
    exact waitForAux_calls_guarded env timeout fuel 0 w h j (Nat.zero_le j) hj

/-- Witness for C10: with `timeout = -1` the loop raises immediately with
zero condition calls, and in a finished positive-timeout run every condition
call happened strictly before the deadline. -/
theorem wait_for_no_calls_after_deadline_witness :
    wait_for (⟨fun _ => none, fun _ => 0, fun _ => 0⟩ : WaitEnv Nat) (-1) 1 =
      some (.timedOut 0 0) ∧
    guardTime (⟨fun _ => none, fun _ => 0, fun _ => 1⟩ : WaitEnv Nat) 1 < 2 := by
  constructor
  · exact (wait_for_no_calls_after_deadline Nat ⟨fun _ => none, fun _ => 0, fun _ => 0⟩
      (-1) 1).1 (by norm_num) (by norm_num)
  · refine (wait_for_no_calls_after_deadline Nat ⟨fun _ => none, fun _ => 0, fun _ => 1⟩
      2 3).2 (.timedOut 2 2) ?_ 1 ?_
    · norm_num [wait_for, waitForAux]
    · show 1 < WaitOutcome.calls (.timedOut 2 2)
      norm_num [WaitOutcome.calls]

end CCC
